import Mathlib

/-!
Shallow embedding of the consignment-intake Streamlit application
(`src/app.py`) and proofs about its session/draft state machine.

Conventions used throughout:
* Python byte strings are `List Nat`, each entry a byte value `< 256`.
* Python dicts used as keyed stores are association lists
  (`List (key × value)`); `dict.get`, assignment and `del` are the
  helpers `fvGet` / `fvSet` / `fvDel` below.
* Stateful Streamlit `st.session_state` mutation is explicit state
  passing over the `SessionState` record.
* External library calls (MD5 digest, YOLO detection, PIL PNG
  encoding) are passed in as function parameters, so every theorem
  quantifies over the external collaborator's behaviour.
* Fallible operations (`json.dumps` on a non-serializable value)
  return `Option`.
-/

namespace IntakeApp

/-- A Python `bytes` value: the list of its byte values (each `< 256`). -/
abbrev Bytes := List Nat

/-- `b` is a well-formed byte string: every entry is a byte value. -/
def ValidBytes (b : Bytes) : Prop := ∀ x ∈ b, x < 256

instance : DecidablePred ValidBytes := fun b =>
  inferInstanceAs (Decidable (∀ x ∈ b, x < 256))

/-- JSON-representable values stored in `st.session_state.form_values`.
Python floats are dyadic rationals `m * 2^e` and round-trip exactly
through `json.dumps`/`json.loads`, so a float is represented by its
mantissa/exponent pair.  `vBoolMap` covers the `enabled_fields` copy
that `save_form_values` places inside `form_values`. -/
inductive Value
  | vStr (s : String)
  | vInt (n : Int)
  | vFlt (m : Int) (e : Int)
  | vBool (b : Bool)
  | vNull
  | vBoolMap (m : List (String × Bool))
  deriving DecidableEq, Repr

/-- Keys of the `form_values` dict.  `app.py` builds per-item keys by
string concatenation (`f"{field_id}_{item_index}"`); since no field
identifier contains an underscore followed by digits, that encoding is
injective and is modelled by the structured constructor `item`.
Non-item keys such as `'customer_name'` are `global_` keys. -/
inductive FVKey
  | item (field : String) (idx : Nat)
  | global_ (name : String)
  deriving DecidableEq, Repr

/-- Python `dict.get(k, default)` on an association list. -/
def fvGet {κ α : Type} [DecidableEq κ] (m : List (κ × α)) (k : κ) (d : α) : α :=
  (m.lookup k).getD d

/-- Python `dict[k] = v` on an association list (replace or append). -/
def fvSet {κ α : Type} [DecidableEq κ] (m : List (κ × α)) (k : κ) (v : α) :
    List (κ × α) :=
  match m with
  | [] => [(k, v)]
  | (k', v') :: rest => if k' = k then (k, v) :: rest else (k', v') :: fvSet rest k v

/-- Python `if k in dict: del dict[k]` on an association list. -/
def fvDel {κ α : Type} [DecidableEq κ] (m : List (κ × α)) (k : κ) : List (κ × α) :=
  match m with
  | [] => []
  | (k', v') :: rest => if k' = k then fvDel rest k else (k', v') :: fvDel rest k

/-- Membership of a key in an association list (`k in dict`). -/
def fvMem {κ α : Type} [DecidableEq κ] (m : List (κ × α)) (k : κ) : Bool :=
  (m.lookup k).isSome

/-- Python truthiness of a `Value` (`bool(v)` is `False`). -/
def pyFalsy : Value → Bool
  | .vStr s => s = ""
  | .vInt n => n = 0
  | .vFlt m _ => m = 0
  | .vBool b => !b
  | .vNull => true
  | .vBoolMap m => m.isEmpty

/-! ## Base64 (`base64.b64encode` / `base64.b64decode`)

`save_draft` smuggles photo bytes through the JSON draft column with
standard base64; the model implements RFC 4648 base64 over `Bytes`. -/

/-- The base64 alphabet in index order. -/
def b64Alphabet : List Char :=
  "ABCDEFGHIJKLMNOPQRSTUVWXYZabcdefghijklmnopqrstuvwxyz0123456789+/".toList

/-- Character for a sextet value. -/
def sextetChar (n : Nat) : Char := b64Alphabet.getD n '='

/-- Sextet value of an alphabet character. -/
def sextetVal (c : Char) : Nat := b64Alphabet.indexOf c

/-- base64-encode byte values three at a time (with `=` padding). -/
def b64encodeChunks : List Nat → List Char
  | a :: b :: c :: rest =>
      sextetChar (a / 4) :: sextetChar ((a % 4) * 16 + b / 16) ::
      sextetChar ((b % 16) * 4 + c / 64) :: sextetChar (c % 64) ::
      b64encodeChunks rest
  | [a, b] =>
      [sextetChar (a / 4), sextetChar ((a % 4) * 16 + b / 16),
       sextetChar ((b % 16) * 4), '=']
  | [a] => [sextetChar (a / 4), sextetChar ((a % 4) * 16), '=', '=']
  | [] => []

/-- base64-decode characters four at a time, honouring `=` padding. -/
def b64decodeChunks : List Char → List Nat
  | c0 :: c1 :: c2 :: c3 :: rest =>
      if c2 = '=' then
        [sextetVal c0 * 4 + sextetVal c1 / 16]
      else if c3 = '=' then
        [sextetVal c0 * 4 + sextetVal c1 / 16,
         (sextetVal c1 % 16) * 16 + sextetVal c2 / 4]
      else
        (sextetVal c0 * 4 + sextetVal c1 / 16) ::
        ((sextetVal c1 % 16) * 16 + sextetVal c2 / 4) ::
        ((sextetVal c2 % 4) * 64 + sextetVal c3) ::
        b64decodeChunks rest
  | _ => []

/-- `base64.b64encode(b).decode('utf-8')`. -/
def b64encodeStr (b : Bytes) : String := (b64encodeChunks b).asString

/-- `base64.b64decode(s)`. -/
def b64decodeStr (s : String) : Bytes := b64decodeChunks s.toList

theorem sextetVal_sextetChar : ∀ i : Fin 64, sextetVal (sextetChar i.1) = i.1 := by
  decide

theorem sextetChar_ne_pad : ∀ i : Fin 64, sextetChar i.1 ≠ '=' := by
  decide

theorem sextetVal_sextetChar_of_lt {i : Nat} (h : i < 64) :
    sextetVal (sextetChar i) = i := sextetVal_sextetChar ⟨i, h⟩

theorem sextetChar_ne_pad_of_lt {i : Nat} (h : i < 64) :
    sextetChar i ≠ '=' := sextetChar_ne_pad ⟨i, h⟩

/-- Decoding inverts encoding on well-formed byte strings. -/
theorem b64decodeChunks_b64encodeChunks :
    ∀ l : Bytes, ValidBytes l → b64decodeChunks (b64encodeChunks l) = l := by
  intro l
  induction l using b64encodeChunks.induct with
  | case1 a b c rest ih =>
      intro hv
      have ha : a < 256 := hv a (by simp)
      have hb : b < 256 := hv b (by simp)
      have hc : c < 256 := hv c (by simp)
      obtain ⟨x, hx⟩ : ∃ x, b / 16 = x := ⟨_, rfl⟩
      obtain ⟨y, hy⟩ : ∃ y, c / 64 = y := ⟨_, rfl⟩
      have hxlt : x < 16 := by omega
      have hylt : y < 4 := by omega
      have h0 : a / 4 < 64 := by omega
      have h1 : (a % 4) * 16 + x < 64 := by omega
      have h2 : (b % 16) * 4 + y < 64 := by omega
      have h3 : c % 64 < 64 := by omega
      rw [b64encodeChunks, b64decodeChunks, hx, hy]
      rw [if_neg (sextetChar_ne_pad_of_lt h2), if_neg (sextetChar_ne_pad_of_lt h3)]
      rw [sextetVal_sextetChar_of_lt h0, sextetVal_sextetChar_of_lt h1,
        sextetVal_sextetChar_of_lt h2, sextetVal_sextetChar_of_lt h3]
      rw [ih (fun z hz => hv z (by simp [hz]))]
      simp only [List.cons.injEq]
      refine ⟨?_, ?_, ?_, trivial⟩ <;> omega
  | case2 a b =>
      intro hv
      have ha : a < 256 := hv a (by simp)
      have hb : b < 256 := hv b (by simp)
      obtain ⟨x, hx⟩ : ∃ x, b / 16 = x := ⟨_, rfl⟩
      have hxlt : x < 16 := by omega
      have h0 : a / 4 < 64 := by omega
      have h1 : (a % 4) * 16 + x < 64 := by omega
      have h2 : (b % 16) * 4 < 64 := by omega
      rw [b64encodeChunks, b64decodeChunks, hx]
      rw [if_neg (sextetChar_ne_pad_of_lt h2), if_pos rfl]
      rw [sextetVal_sextetChar_of_lt h0, sextetVal_sextetChar_of_lt h1,
        sextetVal_sextetChar_of_lt h2]
      simp only [List.cons.injEq]
      refine ⟨?_, ?_, trivial⟩ <;> omega
  | case3 a =>
      intro hv
      have ha : a < 256 := hv a (by simp)
      have h0 : a / 4 < 64 := by omega
      have h1 : (a % 4) * 16 < 64 := by omega
      rw [b64encodeChunks, b64decodeChunks]
      rw [if_pos rfl, sextetVal_sextetChar_of_lt h0, sextetVal_sextetChar_of_lt h1]
      congr 1
      omega
  | case4 => intro _; rfl

theorem b64decodeStr_b64encodeStr (b : Bytes) (hv : ValidBytes b) :
    b64decodeStr (b64encodeStr b) = b := by
  unfold b64decodeStr b64encodeStr
  rw [show ((b64encodeChunks b).asString).toList = b64encodeChunks b from rfl]
  exact b64decodeChunks_b64encodeChunks b hv

/-! ## Decimal string keys (`str(k)` / `int(k)`)

`save_draft` turns the integer keys of `item_images` into decimal
strings; `load_draft` parses them back with `int(k)`.  Decimal
numerals are modelled with Mathlib's `Nat.digits`. -/

/-- The character of one decimal digit. -/
def digitChar10 (d : Nat) : Char := Char.ofNat (48 + d)

/-- The decimal digit of one character. -/
def charDigit10 (c : Char) : Nat := c.toNat - 48

/-- Little-endian decimal digits, by structural (fuel) recursion so
that concrete numerals reduce in the kernel. -/
def decDigitsAux : Nat → Nat → List Nat
  | _, 0 => []
  | 0, _ + 1 => []
  | fuel + 1, m + 1 => ((m + 1) % 10) :: decDigitsAux fuel ((m + 1) / 10)

/-- Little-endian decimal digits of `n`. -/
def decDigits (n : Nat) : List Nat := decDigitsAux n n

/-- Value of a little-endian decimal digit list. -/
def decVal : List Nat → Nat
  | [] => 0
  | d :: ds => d + 10 * decVal ds

/-- Python `str(n)` for a natural number. -/
def strOfNat (n : Nat) : String :=
  if n = 0 then "0" else (((decDigits n).reverse).map digitChar10).asString

/-- Python `int(s)` for a decimal numeral string. -/
def natOfStr (s : String) : Nat :=
  decVal ((s.toList.map charDigit10).reverse)

theorem decDigitsAux_eq_digits (fuel m : Nat) (h : m ≤ fuel) :
    decDigitsAux fuel m = Nat.digits 10 m := by
  induction fuel generalizing m with
  | zero =>
      interval_cases m
      simp [decDigitsAux]
  | succ fuel ih =>
      match m with
      | 0 => simp [decDigitsAux]
      | m + 1 =>
          rw [decDigitsAux, Nat.digits_def' (by norm_num : 1 < 10) (Nat.succ_pos m)]
          congr 1
          exact ih _ (by omega)

theorem decDigits_eq_digits (n : Nat) : decDigits n = Nat.digits 10 n :=
  decDigitsAux_eq_digits n n le_rfl

theorem decVal_eq_ofDigits (l : List Nat) : decVal l = Nat.ofDigits 10 l := by
  induction l with
  | nil => rfl
  | cons d ds ih => rw [decVal, Nat.ofDigits_cons, ih]

theorem charDigit10_digitChar10 : ∀ d : Fin 10, charDigit10 (digitChar10 d.1) = d.1 := by
  decide

theorem natOfStr_strOfNat (n : Nat) : natOfStr (strOfNat n) = n := by
  unfold strOfNat natOfStr
  by_cases h : n = 0
  · subst h; decide
  · rw [if_neg h, decDigits_eq_digits]
    rw [show ((((Nat.digits 10 n).reverse).map digitChar10).asString).toList
        = ((Nat.digits 10 n).reverse).map digitChar10 from rfl]
    rw [List.map_map, List.map_reverse, List.reverse_reverse, decVal_eq_ofDigits]
    have : (Nat.digits 10 n).map (charDigit10 ∘ digitChar10) = Nat.digits 10 n := by
      rw [show Nat.digits 10 n = (Nat.digits 10 n).map id from (List.map_id _).symm]
      rw [List.map_map]
      apply List.map_congr_left
      intro d hd
      have hlt : d < 10 := Nat.digits_lt_base (by norm_num) (by simpa using hd)
      exact charDigit10_digitChar10 ⟨d, hlt⟩
    rw [this, Nat.ofDigits_digits]

/-! ## Form data and the draft store

`save_current_form_to_draft` collects the session's form state into the
`form_data` dict; `save_draft` serializes it (images to base64) and
upserts one SQLite row; `load_draft` reads it back. -/

/-- The `form_data` dict collected in `save_current_form_to_draft`. -/
structure FormData where
  form_values : List (FVKey × Value)
  num_items : Nat
  item_images : List (Nat × Bytes)
  image_data : Option Bytes
  image_hash : Option String
  boxes_data : List (List Int)
  detection_complete : Bool
  is_new_consigner : Bool
  consigner_type_selection : String
  searched_account_number : String
  manual_account_number : String
  search_failed : Bool
  enabled_fields : List (String × Bool)
  deriving DecidableEq, Repr

/-- The JSON-representable form of `FormData` that `save_draft` stores:
`item_images` keys become decimal strings and values base64 text, the
main image becomes base64 text.  All remaining fields are already
JSON-representable and `json.dumps`/`json.loads` round-trips them
unchanged, so they are carried over verbatim. -/
structure SerializedFormData where
  form_values : List (FVKey × Value)
  num_items : Nat
  item_images : List (String × String)
  image_data : Option String
  image_hash : Option String
  boxes_data : List (List Int)
  detection_complete : Bool
  is_new_consigner : Bool
  consigner_type_selection : String
  searched_account_number : String
  manual_account_number : String
  search_failed : Bool
  enabled_fields : List (String × Bool)
  deriving DecidableEq, Repr

/-- The serialization step of `save_draft`: per-item images are base64
encoded under stringified keys; the main image is base64 encoded only
when it is truthy (`if serializable_data['image_data']:`), so a present
but *empty* byte string is left as raw `bytes`, on which `json.dumps`
raises `TypeError` — modelled by returning `none`. -/
def serializeFormData (fd : FormData) : Option SerializedFormData :=
  let imgs := fd.item_images.map (fun p => (strOfNat p.1, b64encodeStr p.2))
  match fd.image_data with
  | none => some
      { form_values := fd.form_values, num_items := fd.num_items,
        item_images := imgs, image_data := none, image_hash := fd.image_hash,
        boxes_data := fd.boxes_data, detection_complete := fd.detection_complete,
        is_new_consigner := fd.is_new_consigner,
        consigner_type_selection := fd.consigner_type_selection,
        searched_account_number := fd.searched_account_number,
        manual_account_number := fd.manual_account_number,
        search_failed := fd.search_failed, enabled_fields := fd.enabled_fields }
  | some b =>
      if b.isEmpty then none
      else some
        { form_values := fd.form_values, num_items := fd.num_items,
          item_images := imgs, image_data := some (b64encodeStr b),
          image_hash := fd.image_hash, boxes_data := fd.boxes_data,
          detection_complete := fd.detection_complete,
          is_new_consigner := fd.is_new_consigner,
          consigner_type_selection := fd.consigner_type_selection,
          searched_account_number := fd.searched_account_number,
          manual_account_number := fd.manual_account_number,
          search_failed := fd.search_failed, enabled_fields := fd.enabled_fields }

/-- The deserialization step of `load_draft`: stringified keys are
parsed back with `int(k)`, base64 text back to bytes.  (The code skips
decoding an empty `image_data` string because it is falsy; since
decoding the empty string yields the empty byte string this needs no
separate case.) -/
def deserializeFormData (sfd : SerializedFormData) : FormData :=
  { form_values := sfd.form_values, num_items := sfd.num_items,
    item_images := sfd.item_images.map (fun p => (natOfStr p.1, b64decodeStr p.2)),
    image_data := sfd.image_data.map b64decodeStr,
    image_hash := sfd.image_hash, boxes_data := sfd.boxes_data,
    detection_complete := sfd.detection_complete,
    is_new_consigner := sfd.is_new_consigner,
    consigner_type_selection := sfd.consigner_type_selection,
    searched_account_number := sfd.searched_account_number,
    manual_account_number := sfd.manual_account_number,
    search_failed := sfd.search_failed, enabled_fields := sfd.enabled_fields }

/-- One row of the `form_drafts` SQLite table.  Timestamps are seconds. -/
structure DraftRecord where
  id : String
  name : String
  app_mode : String
  form_data : SerializedFormData
  created_at : Nat
  updated_at : Nat
  deriving DecidableEq, Repr

/-- The summary columns returned by `get_all_drafts`
(`SELECT id, name, app_mode, created_at, updated_at`). -/
structure DraftSummary where
  id : String
  name : String
  app_mode : String
  created_at : Nat
  updated_at : Nat
  deriving DecidableEq, Repr

def DraftRecord.summary (r : DraftRecord) : DraftSummary :=
  ⟨r.id, r.name, r.app_mode, r.created_at, r.updated_at⟩

/-- `DRAFT_EXPIRY_HOURS = 24`, as seconds. -/
def draftExpirySeconds : Nat := 24 * 3600

/-- The `INSERT ... ON CONFLICT(id) DO UPDATE` of `save_draft`:
update the existing row for `id` (keeping `created_at`), else insert. -/
def upsertDraft (now : Nat) (id name mode : String) (sfd : SerializedFormData) :
    List DraftRecord → List DraftRecord
  | [] => [⟨id, name, mode, sfd, now, now⟩]
  | r :: rest =>
      if r.id = id then
        { r with name := name, app_mode := mode, form_data := sfd,
                 updated_at := now } :: rest
      else r :: upsertDraft now id name mode sfd rest

/-- `save_draft(draft_id, name, app_mode, form_data)`: serialize and
upsert; `none` when serialization raises. -/
def save_draft (now : Nat) (id name mode : String) (fd : FormData)
    (store : List DraftRecord) : Option (List DraftRecord) :=
  (serializeFormData fd).map (fun sfd => upsertDraft now id name mode sfd store)

/-- `load_draft(draft_id)`: fetch the row, decode images, return
`(form_data, app_mode)`; `None, None` when no row matches. -/
def load_draft (id : String) (store : List DraftRecord) :
    Option (FormData × String) :=
  (store.find? (fun r => r.id = id)).map
    (fun r => (deserializeFormData r.form_data, r.app_mode))

/-- `cleanup_old_drafts`: `DELETE FROM form_drafts WHERE updated_at < ?`
with the cutoff `datetime.now() - timedelta(hours=DRAFT_EXPIRY_HOURS)`. -/
def cleanup_old_drafts (now : Nat) (store : List DraftRecord) : List DraftRecord :=
  store.filter (fun r => !(r.updated_at < now - draftExpirySeconds : Bool))

/-- Ordering used by `ORDER BY updated_at DESC`. -/
def laterUpdated (a b : DraftRecord) : Prop := b.updated_at ≤ a.updated_at

instance : DecidableRel laterUpdated := fun a b =>
  inferInstanceAs (Decidable (b.updated_at ≤ a.updated_at))

instance : IsTotal DraftRecord laterUpdated :=
  ⟨fun a b => (Nat.le_total b.updated_at a.updated_at).imp id id⟩

instance : IsTrans DraftRecord laterUpdated :=
  ⟨fun _ _ _ h h' => Nat.le_trans h' h⟩

/-- `get_all_drafts`: purge expired rows, then return summaries ordered
by most-recently-updated.  The pair is (table after the purge, rows
returned). -/
def get_all_drafts (now : Nat) (store : List DraftRecord) :
    List DraftRecord × List DraftSummary :=
  let store' := cleanup_old_drafts now store
  (store', (store'.insertionSort laterUpdated).map DraftRecord.summary)

/-- `delete_draft(draft_id)`. -/
def delete_draft (id : String) (store : List DraftRecord) : List DraftRecord :=
  store.filter (fun r => !(r.id = id : Bool))

/-- All byte strings inside a `FormData` are well-formed bytes. -/
def ValidFormData (fd : FormData) : Prop :=
  (∀ p ∈ fd.item_images, ValidBytes p.2) ∧
  (∀ b, fd.image_data = some b → ValidBytes b)

instance : DecidablePred ValidFormData := fun fd => by
  unfold ValidFormData
  infer_instance

theorem itemImages_roundtrip (l : List (Nat × Bytes))
    (hv : ∀ p ∈ l, ValidBytes p.2) :
    (l.map (fun p => (strOfNat p.1, b64encodeStr p.2))).map
      (fun p => (natOfStr p.1, b64decodeStr p.2)) = l := by
  induction l with
  | nil => rfl
  | cons p rest ih =>
      obtain ⟨k, v⟩ := p
      simp only [List.map_cons, List.cons.injEq]
      refine ⟨?_, ih (fun q hq => hv q (by simp [hq]))⟩
      simp [natOfStr_strOfNat, b64decodeStr_b64encodeStr v (hv ⟨k, v⟩ (by simp))]

/-- Deserialization inverts serialization whenever serialization
succeeds on well-formed bytes. -/
theorem deserialize_serialize (fd : FormData) (hv : ValidFormData fd)
    (sfd : SerializedFormData) (h : serializeFormData fd = some sfd) :
    deserializeFormData sfd = fd := by
  obtain ⟨himgs, himg⟩ := hv
  cases hcase : fd.image_data with
  | none =>
      simp only [serializeFormData, hcase, Option.some.injEq] at h
      subst h
      unfold deserializeFormData
      cases fd
      simp_all [itemImages_roundtrip _ himgs]
  | some b =>
      simp only [serializeFormData, hcase] at h
      by_cases hb : b.isEmpty
      · simp [hb] at h
      · rw [if_neg (by simpa using hb)] at h
        simp only [Option.some.injEq] at h
        subst h
        unfold deserializeFormData
        have hvb : ValidBytes b := himg b hcase
        cases fd
        simp_all [itemImages_roundtrip _ himgs, b64decodeStr_b64encodeStr b hvb]

/-- `find?` by id after an upsert returns the freshly written row. -/
theorem find?_upsertDraft (now : Nat) (id name mode : String)
    (sfd : SerializedFormData) (store : List DraftRecord) :
    ∃ created, (upsertDraft now id name mode sfd store).find? (fun r => r.id = id)
      = some ⟨id, name, mode, sfd, created, now⟩ := by
  induction store with
  | nil => exact ⟨now, by simp [upsertDraft, List.find?]⟩
  | cons r rest ih =>
      by_cases hid : r.id = id
      · refine ⟨r.created_at, ?_⟩
        simp [upsertDraft, hid, List.find?]
      · obtain ⟨created, hc⟩ := ih
        refine ⟨created, ?_⟩
        simp only [upsertDraft, if_neg hid]
        rw [List.find?_cons]
        simp [hid, hc]

/-! ## Session state (`st.session_state`) and its operations -/

/-- `AVAILABLE_FIELDS.keys()`, in declaration order. -/
def availableFieldIds : List String :=
  ["name", "notes", "quantity", "price", "status", "condition", "category",
   "dimensions"]

/-- `get_default_enabled_fields()`: each field's `default_enabled`. -/
def get_default_enabled_fields : List (String × Bool) :=
  [("name", true), ("notes", true), ("quantity", true), ("price", false),
   ("status", false), ("condition", false), ("category", false),
   ("dimensions", false)]

/-- A result of `search_consigner_by_account` (stored in
`consigner_search_result`); only the fields the session logic reads. -/
structure SearchResult where
  account_number : String
  highest_item_number : Nat
  next_item_number : Nat
  total_items : Nat
  deriving DecidableEq, Repr

/-- One extracted email item candidate: a JSON object, as returned by
the parsing adapter (`parsed_email_data['items'][i]`). -/
abbrev ParsedItem := List (String × Value)

/-- `item.get(k, default)` on a parsed JSON object. -/
def pget (it : ParsedItem) (k : String) (d : Value) : Value :=
  (it.lookup k).getD d

/-- The session fields of `init_session_state` that the state machine
reads and writes (Gmail thread caches are kept abstract as the parsed
result only). -/
structure SessionState where
  app_mode : Option String
  show_form : Bool
  image_data : Option Bytes
  image_hash : Option String
  boxes_data : List (List Int)
  detection_complete : Bool
  num_items : Nat
  form_values : List (FVKey × Value)
  had_active_input : Bool
  is_new_consigner : Bool
  starting_item_number : Nat
  consigner_type_selection : String
  consigner_search_result : Option SearchResult
  searched_account_number : String
  manual_account_number : String
  search_failed : Bool
  item_images : List (Nat × Bytes)
  adding_photo_for_item : Option Nat
  current_draft_id : Option String
  parsed_email_data : Option (List ParsedItem)
  email_import_step : String
  enabled_fields : List (String × Bool)
  deriving DecidableEq, Repr

/-- The defaults dict of `init_session_state`. -/
def initialState : SessionState :=
  { app_mode := none, show_form := false, image_data := none,
    image_hash := none, boxes_data := [], detection_complete := false,
    num_items := 0, form_values := [], had_active_input := false,
    is_new_consigner := true, starting_item_number := 1,
    consigner_type_selection := "New Consigner",
    consigner_search_result := none, searched_account_number := "",
    manual_account_number := "", search_failed := false, item_images := [],
    adding_photo_for_item := none, current_draft_id := none,
    parsed_email_data := none, email_import_step := "queue",
    enabled_fields := get_default_enabled_fields }

/-- `is_field_enabled(field_id)`. -/
def is_field_enabled (s : SessionState) (fieldId : String) : Bool :=
  fvGet s.enabled_fields fieldId false

/-- `get_form_value(key, default)`. -/
def get_form_value (s : SessionState) (key : FVKey) (d : Value) : Value :=
  fvGet s.form_values key d

/-- `process_new_image(image_bytes)`, parameterized by the external MD5
hex digest (`get_image_hash` is `hashlib.md5(...).hexdigest()`). -/
def process_new_image (md5hex : Bytes → String) (imageBytes : Bytes)
    (s : SessionState) : SessionState :=
  let newHash := md5hex imageBytes
  let s' :=
    if s.image_hash ≠ some newHash then
      { s with image_data := some imageBytes, image_hash := some newHash,
               boxes_data := [], detection_complete := false, num_items := 0,
               form_values := [], item_images := [] }
    else s
  { s' with had_active_input := true }

/-- `clear_all_data()`. -/
def clear_all_data (s : SessionState) : SessionState :=
  { s with image_data := none, image_hash := none, boxes_data := [],
           detection_complete := false, num_items := 0, form_values := [],
           had_active_input := false, item_images := [],
           adding_photo_for_item := none }

/-- `get_accepted_items_count()`. -/
def get_accepted_items_count (s : SessionState) : Nat :=
  (List.range s.num_items).foldl
    (fun count i =>
      if is_field_enabled s "status" then
        if get_form_value s (.item "status" i) (.vStr "Accept") = .vStr "Accept"
        then count + 1 else count
      else count + 1)
    0

/-- The integer value of a stored quantity (`st.number_input` with
integer `min_value`/`step` always stores a Python `int`; any other
stored value would make the `+=` in `get_total_quantity` raise). -/
def valueToInt : Value → Int
  | .vInt n => n
  | _ => 0

/-- `get_total_quantity()`. -/
def get_total_quantity (s : SessionState) : Int :=
  (List.range s.num_items).foldl
    (fun total i =>
      let includeItem :=
        if is_field_enabled s "status" then
          get_form_value s (.item "status" i) (.vStr "Accept") = .vStr "Accept"
        else True
      if includeItem then
        if is_field_enabled s "quantity" then
          total + valueToInt (get_form_value s (.item "quantity" i) (.vInt 1))
        else total + 1
      else total)
    0

/-- The failed-search branch of `render_consigner_section` (the `error`
case after `search_consigner_by_account` returns an error): the warning
is shown inline and these four fields are written. -/
def consigner_search_failure (accountSearch : String) (s : SessionState) :
    SessionState :=
  { s with consigner_search_result := none, search_failed := true,
           manual_account_number := accountSearch,
           searched_account_number := "" }

/-- The `Parse This Thread` handler of the email `'select'` step:
`parse_email_thread_with_claude` returns `(parsed, none)` on success or
`(none, error)` on failure; on failure only `st.error` runs, on success
the parsed data is stored and the step advances to `'review'`. -/
def handle_parse_result (result : Option (List ParsedItem)) (s : SessionState) :
    SessionState :=
  match result with
  | none => s
  | some parsed =>
      { s with parsed_email_data := some parsed, email_import_step := "review" }

/-! ## Detection flow (`app_mode == "detection"`, Step 2) -/

/-- A detection box `(x1, y1, x2, y2)` after `list(map(int, box))`
(YOLO `xyxy` coordinates are non-negative, so the ints are naturals). -/
abbrev Box := Nat × Nat × Nat × Nat

/-- `crop_array.size` for `crop_array = img_array[y1:y2, x1:x2]` on an
`h × w × 3` RGB array, with numpy's slice clamping. -/
def cropSize (w h : Nat) (box : Box) : Nat :=
  (min box.2.2.2 h - min box.2.1 h) * (min box.2.2.1 w - min box.1 w) * 3

/-- The `for i, box in enumerate(boxes)` loop that stores
`item_images[i]` only when the crop is non-empty; `cropPng box` stands
for the external PNG encoding of the cropped pixel array. -/
def detectionImages (cropPng : Box → Bytes) (w h : Nat) :
    Nat → List Box → List (Nat × Bytes)
  | _, [] => []
  | i, box :: rest =>
      if 0 < cropSize w h box then
        (i, cropPng box) :: detectionImages cropPng w h (i + 1) rest
      else detectionImages cropPng w h (i + 1) rest

/-- The detection branch run on a newly uploaded image (lines
2093–2118): store the integer boxes, clear `item_images`, then either
create one item per box (photo only for non-empty crops) or, with zero
boxes, synthesize a single item backed by the PNG of the whole image
(`wholePng`). -/
def run_detection (cropPng : Box → Bytes) (wholePng : Bytes) (w h : Nat)
    (boxes : List Box) (s : SessionState) : SessionState :=
  let boxesData := boxes.map fun b =>
    [(b.1 : Int), (b.2.1 : Int), (b.2.2.1 : Int), (b.2.2.2 : Int)]
  if 0 < boxes.length then
    { s with boxes_data := boxesData,
             item_images := detectionImages cropPng w h 0 boxes,
             num_items := boxes.length, detection_complete := true }
  else
    { s with boxes_data := boxesData, item_images := [(0, wholePng)],
             num_items := 1, detection_complete := true }

/-! ## Photo sub-step cancel handlers -/

/-- Detection-mode `Cancel` (lines 2042–2048): remove the item exactly
when its index is not backed by a detection box, regardless of any
entered name. -/
def cancel_photo_detection (itemIdx : Nat) (s : SessionState) : SessionState :=
  if s.boxes_data.length ≤ itemIdx then
    { s with item_images := fvDel s.item_images itemIdx,
             num_items := s.num_items - 1, adding_photo_for_item := none }
  else { s with adding_photo_for_item := none }

/-- General-mode `Cancel` (lines 2297–2304): always discard the photo
taken during the sub-step; remove the item only when it is the last one
and its name is still falsy. -/
def cancel_photo_general (itemIdx : Nat) (s : SessionState) : SessionState :=
  let s' := { s with item_images := fvDel s.item_images itemIdx }
  if itemIdx = s.num_items - 1 ∧
      pyFalsy (get_form_value s (.item "name" itemIdx) (.vStr "")) then
    { s' with num_items := s.num_items - 1, adding_photo_for_item := none }
  else { s' with adding_photo_for_item := none }

/-- Email-mode `Cancel` (lines 2472–2478): same logic as general mode. -/
def cancel_photo_email (itemIdx : Nat) (s : SessionState) : SessionState :=
  cancel_photo_general itemIdx s

/-! ## Add/Remove item operations (general mode, lines 2361–2395)

`save_form_values()` runs before each handler; it only copies widget
state into `form_values`, which the embedding tracks directly in
`form_values`, so it is the identity here. -/

/-- `Add Item (no photo)`. -/
def add_item_no_photo (s : SessionState) : SessionState :=
  { s with num_items := s.num_items + 1 }

/-- `Add Item (with photo)`: enter the photo sub-step for the new
index. -/
def add_item_with_photo (s : SessionState) : SessionState :=
  { s with num_items := s.num_items + 1,
           adding_photo_for_item := some s.num_items }

/-- Supplying a photo in the sub-step (`st.file_uploader` returning a
file for item `itemIdx`). -/
def supply_photo (itemIdx : Nat) (photo : Bytes) (s : SessionState) :
    SessionState :=
  { s with item_images := fvSet s.item_images itemIdx photo }

/-- `Done` in the photo sub-step. -/
def done_photo (s : SessionState) : SessionState :=
  { s with adding_photo_for_item := none }

/-- `Remove Last Item`: delete the highest index's photo and every
per-item field value, then decrement.  The button is rendered only when
`num_items > 0`. -/
def remove_last_item (s : SessionState) : SessionState :=
  let lastIndex := s.num_items - 1
  { s with item_images := fvDel s.item_images lastIndex,
           form_values := availableFieldIds.foldl
             (fun fv f => fvDel fv (.item f lastIndex)) s.form_values,
           num_items := s.num_items - 1 }

/-- One user action on the item list.  `editField` is `on_field_change`
for a rendered per-item widget: widgets exist only for item indices
below `num_items` and for catalog fields. -/
inductive FormOp
  | addNoPhoto
  | addWithPhoto (photo : Option Bytes) (finished : Bool)
  | removeLast
  | editField (i : Nat) (field : String) (v : Value)

/-- Apply one operation, with the render-time guards: `Remove Last
Item` is not offered at zero items and `editField` only exists for a
rendered widget. -/
def applyOp (s : SessionState) : FormOp → SessionState
  | .addNoPhoto => add_item_no_photo s
  | .addWithPhoto photo finished =>
      let idx := s.num_items
      let s1 := add_item_with_photo s
      let s2 := match photo with
        | none => s1
        | some b => supply_photo idx b s1
      if finished then done_photo s2 else cancel_photo_general idx s2
  | .removeLast => if s.num_items = 0 then s else remove_last_item s
  | .editField i field v =>
      if i < s.num_items ∧ field ∈ availableFieldIds then
        { s with form_values := fvSet s.form_values (.item field i) v }
      else s

/-- Apply a sequence of operations. -/
def applyOps (s : SessionState) (ops : List FormOp) : SessionState :=
  ops.foldl applyOp s

/-! ## Email import: materializing parsed items -/

/-- `item.get('status') in ['approved', 'unknown', 'pending']`. -/
def statusApproved (it : ParsedItem) : Bool :=
  match it.lookup "status" with
  | some v => v = .vStr "approved" ∨ v = .vStr "unknown" ∨ v = .vStr "pending"
  | none => false

/-- The `for i, item in enumerate(approved_items)` loop of the
`Edit and Create Form` handler. -/
def setEmailItems : Nat → List ParsedItem → List (FVKey × Value) →
    List (FVKey × Value)
  | _, [], fv => fv
  | i, it :: rest, fv =>
      setEmailItems (i + 1) rest
        (fvSet (fvSet (fvSet (fvSet (fvSet fv
          (.item "name" i) (pget it "name" (.vStr "")))
          (.item "notes" i) (pget it "notes" (.vStr "")))
          (.item "quantity" i) (pget it "quantity" (.vInt 1)))
          (.item "status" i) (.vStr "Accept"))
          (.item "price" i) (.vFlt 0 0))

/-- The `Edit and Create Form` handler (lines 2746–2766), given the
customer values already resolved from the parsed data by the `or`
chains (`parsed.get('customer_name') or ''`, …). -/
def email_accept (customerName customerAddress phoneNumber : Value)
    (items : List ParsedItem) (s : SessionState) : SessionState :=
  let fv0 := fvSet (fvSet (fvSet s.form_values
    (.global_ "customer_name") customerName)
    (.global_ "customer_address") customerAddress)
    (.global_ "phone_number") phoneNumber
  let approvedItems := items.filter statusApproved
  { s with is_new_consigner := true,
           num_items := approvedItems.length,
           form_values := setEmailItems 0 approvedItems fv0,
           detection_complete := true,
           email_import_step := "edit" }

/-! ## Association list lemmas -/

theorem lookup_cons_self {κ α : Type} [DecidableEq κ] (k : κ) (v : α)
    (rest : List (κ × α)) : List.lookup k ((k, v) :: rest) = some v := by
  simp [List.lookup_cons]

theorem lookup_cons_ne {κ α : Type} [DecidableEq κ] (k j : κ) (v : α)
    (rest : List (κ × α)) (h : ¬ j = k) :
    List.lookup j ((k, v) :: rest) = List.lookup j rest := by
  have hb : (j == k) = false := by simp [h]
  simp [List.lookup_cons, hb]

theorem fvSet_lookup {κ α : Type} [DecidableEq κ] (m : List (κ × α)) (k j : κ)
    (v : α) :
    (fvSet m k v).lookup j = if j = k then some v else m.lookup j := by
  induction m with
  | nil =>
      by_cases h : j = k
      · subst h
        rw [if_pos rfl, show fvSet ([] : List (κ × α)) j v = [(j, v)] from rfl]
        exact lookup_cons_self _ _ _
      · rw [if_neg h, show fvSet ([] : List (κ × α)) k v = [(k, v)] from rfl,
          lookup_cons_ne _ _ _ _ h]
  | cons p rest ih =>
      obtain ⟨k', v'⟩ := p
      by_cases hk : k' = k
      · subst hk
        rw [show fvSet ((k', v') :: rest) k' v = (k', v) :: rest from by
          simp [fvSet]]
        by_cases hj : j = k'
        · subst hj
          rw [if_pos rfl, lookup_cons_self]
        · rw [if_neg hj, lookup_cons_ne _ _ _ _ hj, lookup_cons_ne _ _ _ _ hj]
      · rw [show fvSet ((k', v') :: rest) k v = (k', v') :: fvSet rest k v from by
          simp [fvSet, hk]]
        by_cases hj : j = k'
        · subst hj
          rw [if_neg hk, lookup_cons_self, lookup_cons_self]
        · rw [lookup_cons_ne _ _ _ _ hj, ih]
          by_cases hjk : j = k
          · rw [if_pos hjk, if_pos hjk]
          · rw [if_neg hjk, if_neg hjk, lookup_cons_ne _ _ _ _ hj]

theorem fvDel_lookup {κ α : Type} [DecidableEq κ] (m : List (κ × α)) (k j : κ) :
    (fvDel m k).lookup j = if j = k then none else m.lookup j := by
  induction m with
  | nil =>
      by_cases h : j = k <;> simp [fvDel, h, List.lookup]
  | cons p rest ih =>
      obtain ⟨k', v'⟩ := p
      by_cases hk : k' = k
      · subst hk
        rw [show fvDel ((k', v') :: rest) k' = fvDel rest k' from by
          simp [fvDel]]
        rw [ih]
        by_cases hj : j = k'
        · rw [if_pos hj, if_pos hj]
        · rw [if_neg hj, if_neg hj, lookup_cons_ne _ _ _ _ hj]
      · rw [show fvDel ((k', v') :: rest) k = (k', v') :: fvDel rest k from by
          simp [fvDel, hk]]
        by_cases hj : j = k'
        · subst hj
          have hjk : ¬ j = k := hk
          rw [if_neg hjk, lookup_cons_self, lookup_cons_self]
        · rw [lookup_cons_ne _ _ _ _ hj, ih]
          by_cases hjk : j = k
          · rw [if_pos hjk, if_pos hjk]
          · rw [if_neg hjk, if_neg hjk, lookup_cons_ne _ _ _ _ hj]

/-! ## C6: resubmitting identical image bytes -/

/-- C6: Submitting the same image bytes twice in a row is idempotent:
for any MD5 digest function, any bytes and any session state, running
`process_new_image` a second time on the same bytes is a no-op — the
image, hash, boxes, detection flag, item count, form values and item
photos are all left unchanged. -/
theorem process_new_image_idempotent (md5hex : Bytes → String) (b : Bytes)
    (s : SessionState) :
    process_new_image md5hex b (process_new_image md5hex b s) =
      process_new_image md5hex b s := by
  unfold process_new_image
  by_cases h : s.image_hash = some (md5hex b) <;> simp [h]

/-! ## C10: frame effect of replacing the image -/

/-- C10: processing an uploaded image whose hash differs from the
current one clears `form_values` entirely (so `customer_name`,
`customer_address` and `phone_number` are gone), resets boxes, item
count, item photos and the detection flag, installs the new image and
hash, and leaves `app_mode`, `consigner_type_selection`,
`searched_account_number`, `manual_account_number`, `search_failed`,
`enabled_fields` and `current_draft_id` unchanged. -/
theorem process_new_image_frame (md5hex : Bytes → String) (b : Bytes)
    (s : SessionState) (h : s.image_hash ≠ some (md5hex b)) :
    (process_new_image md5hex b s).form_values = [] ∧
    fvMem (process_new_image md5hex b s).form_values
      (.global_ "customer_name") = false ∧
    fvMem (process_new_image md5hex b s).form_values
      (.global_ "customer_address") = false ∧
    fvMem (process_new_image md5hex b s).form_values
      (.global_ "phone_number") = false ∧
    (process_new_image md5hex b s).boxes_data = [] ∧
    (process_new_image md5hex b s).num_items = 0 ∧
    (process_new_image md5hex b s).item_images = [] ∧
    (process_new_image md5hex b s).detection_complete = false ∧
    (process_new_image md5hex b s).image_data = some b ∧
    (process_new_image md5hex b s).image_hash = some (md5hex b) ∧
    (process_new_image md5hex b s).app_mode = s.app_mode ∧
    (process_new_image md5hex b s).consigner_type_selection =
      s.consigner_type_selection ∧
    (process_new_image md5hex b s).searched_account_number =
      s.searched_account_number ∧
    (process_new_image md5hex b s).manual_account_number =
      s.manual_account_number ∧
    (process_new_image md5hex b s).search_failed = s.search_failed ∧
    (process_new_image md5hex b s).enabled_fields = s.enabled_fields ∧
    (process_new_image md5hex b s).current_draft_id = s.current_draft_id := by
  simp [process_new_image, h, fvMem, List.lookup]

/-- Witness for C10 at a concrete input: the initial state has no image
hash, so any upload counts as new. -/
theorem process_new_image_frame_witness :
    initialState.image_hash ≠ some ((fun _ => "d41d8cd9") ([0, 1] : Bytes)) ∧
    (process_new_image (fun _ => "d41d8cd9") [0, 1] initialState).num_items = 0 ∧
    (process_new_image (fun _ => "d41d8cd9") [0, 1] initialState).image_data =
      some [0, 1] :=
  ⟨by decide,
   (process_new_image_frame (fun _ => "d41d8cd9") [0, 1] initialState
      (by decide)).2.2.2.2.2.1,
   (process_new_image_frame (fun _ => "d41d8cd9") [0, 1] initialState
      (by decide)).2.2.2.2.2.2.2.2.1⟩

/-! ## C2: adapter failures and Form State -/

/-- C2 as stated is false: a failed account search does not leave Form
State at its pre-call value.  Concretely, a session that had
`searched_account_number = "6732"` is mutated by the failure handler. -/
def sC2 : SessionState :=
  { initialState with consigner_type_selection := "Existing Consigner",
                      is_new_consigner := false,
                      searched_account_number := "6732" }

/-- C2 counterexample: after a failed search for "9999" the session
state differs from its pre-call value (`search_failed` is set,
`manual_account_number` records the query, `searched_account_number`
is cleared). -/
theorem consigner_search_failure_mutates :
    consigner_search_failure "9999" sC2 ≠ sC2 ∧
    (consigner_search_failure "9999" sC2).searched_account_number ≠
      sC2.searched_account_number := by
  decide

/-- C2 amended: an email parse failure leaves the session state
entirely unchanged, and a failed account search leaves form values,
items, photos, image and detection state unchanged, but records the
failure: it clears the search result, sets `search_failed`, stores the
query as the manual account number, and clears the searched account
number. -/
theorem adapter_failure_effects (q : String) (s : SessionState) :
    handle_parse_result none s = s ∧
    (consigner_search_failure q s).form_values = s.form_values ∧
    (consigner_search_failure q s).num_items = s.num_items ∧
    (consigner_search_failure q s).item_images = s.item_images ∧
    (consigner_search_failure q s).image_data = s.image_data ∧
    (consigner_search_failure q s).image_hash = s.image_hash ∧
    (consigner_search_failure q s).boxes_data = s.boxes_data ∧
    (consigner_search_failure q s).detection_complete = s.detection_complete ∧
    (consigner_search_failure q s).enabled_fields = s.enabled_fields ∧
    (consigner_search_failure q s).app_mode = s.app_mode ∧
    (consigner_search_failure q s).consigner_search_result = none ∧
    (consigner_search_failure q s).search_failed = true ∧
    (consigner_search_failure q s).manual_account_number = q ∧
    (consigner_search_failure q s).searched_account_number = "" := by
  refine ⟨rfl, ?_⟩
  simp [consigner_search_failure]

/-! ## C5: total quantity -/

theorem foldl_eq_sum_int {α : Type} (f : Int → α → Int) (δ : α → Int)
    (hf : ∀ acc x, f acc x = acc + δ x) :
    ∀ (l : List α) (init : Int), l.foldl f init = init + (l.map δ).sum := by
  intro l
  induction l with
  | nil => intro init; simp
  | cons a t ih =>
      intro init
      rw [List.foldl_cons, ih, hf, List.map_cons, List.sum_cons]
      ring

theorem foldl_eq_sum_nat {α : Type} (f : Nat → α → Nat) (δ : α → Nat)
    (hf : ∀ acc x, f acc x = acc + δ x) :
    ∀ (l : List α) (init : Nat), l.foldl f init = init + (l.map δ).sum := by
  intro l
  induction l with
  | nil => intro init; simp
  | cons a t ih =>
      intro init
      rw [List.foldl_cons, ih, hf, List.map_cons, List.sum_cons]
      omega

theorem sum_if_eq_sum_filter {α : Type} (p : α → Bool) (v : α → Int) :
    ∀ l : List α,
      (l.map (fun i => if p i then v i else 0)).sum = ((l.filter p).map v).sum := by
  intro l
  induction l with
  | nil => rfl
  | cons a t ih =>
      by_cases hp : p a
      · simp [List.filter_cons, hp, ih]
      · simp [List.filter_cons, hp, ih]

/-- Whether item `i` is included in totals: with the status field
enabled only items whose status value is `"Accept"` count, otherwise
all items count. -/
def itemIncluded (s : SessionState) (i : Nat) : Bool :=
  !(is_field_enabled s "status") ||
    decide (get_form_value s (.item "status" i) (.vStr "Accept") = .vStr "Accept")

/-- The per-item contribution to `get_accepted_items_count`. -/
def acceptedDelta (s : SessionState) (i : Nat) : Nat :=
  if is_field_enabled s "status" then
    if get_form_value s (.item "status" i) (.vStr "Accept") = .vStr "Accept"
    then 1 else 0
  else 1

/-- The per-item contribution to `get_total_quantity`. -/
def quantityDelta (s : SessionState) (i : Nat) : Int :=
  let includeItem :=
    if is_field_enabled s "status" then
      get_form_value s (.item "status" i) (.vStr "Accept") = .vStr "Accept"
    else True
  if includeItem then
    if is_field_enabled s "quantity" then
      valueToInt (get_form_value s (.item "quantity" i) (.vInt 1))
    else 1
  else 0

theorem get_accepted_items_count_eq_sum (s : SessionState) :
    get_accepted_items_count s =
      ((List.range s.num_items).map (acceptedDelta s)).sum := by
  unfold get_accepted_items_count
  rw [foldl_eq_sum_nat _ (acceptedDelta s) ?_ _ 0, Nat.zero_add]
  intro acc i
  unfold acceptedDelta
  split
  · split <;> omega
  · omega

theorem get_total_quantity_eq_sum (s : SessionState) :
    get_total_quantity s =
      ((List.range s.num_items).map (quantityDelta s)).sum := by
  unfold get_total_quantity
  rw [foldl_eq_sum_int _ (quantityDelta s) ?_ _ 0, zero_add]
  intro acc i
  unfold quantityDelta
  by_cases hs : is_field_enabled s "status" <;>
    by_cases ha :
      get_form_value s (.item "status" i) (.vStr "Accept") = .vStr "Accept" <;>
    by_cases hq : is_field_enabled s "quantity" <;>
    simp [hs, ha, hq]

/-- C5: with the quantity field disabled, `get_total_quantity` equals
the accepted item count (all items when status is disabled); with it
enabled, it is the sum of the per-item quantity values over included
items only — rejected items contribute nothing. -/
theorem total_quantity_spec (s : SessionState) :
    (is_field_enabled s "quantity" = false →
      get_total_quantity s = (get_accepted_items_count s : Int)) ∧
    (is_field_enabled s "quantity" = true →
      get_total_quantity s =
        (((List.range s.num_items).filter (itemIncluded s)).map
          (fun i => valueToInt (get_form_value s (.item "quantity" i) (.vInt 1)))).sum) := by
  constructor
  · intro hq
    rw [get_total_quantity_eq_sum, get_accepted_items_count_eq_sum,
      Nat.cast_list_sum, List.map_map]
    congr 1
    apply List.map_congr_left
    intro i _
    unfold quantityDelta acceptedDelta
    simp only [hq, Function.comp]
    by_cases hs : is_field_enabled s "status"
    · by_cases ha :
        get_form_value s (.item "status" i) (.vStr "Accept") = .vStr "Accept" <;>
        simp [hs, ha]
    · simp [hs]
  · intro hq
    rw [get_total_quantity_eq_sum,
      ← sum_if_eq_sum_filter (itemIncluded s)
        (fun i => valueToInt (get_form_value s (.item "quantity" i) (.vInt 1)))]
    congr 1
    apply List.map_congr_left
    intro i _
    unfold quantityDelta itemIncluded
    by_cases hs : is_field_enabled s "status"
    · by_cases ha :
        get_form_value s (.item "status" i) (.vStr "Accept") = .vStr "Accept" <;>
        simp [hs, ha, hq]
    · simp [hs, hq]

/-- The spec's worked example: quantity and status enabled, included
quantities `[2, 1, 3]` plus one rejected item with quantity `5`. -/
def sC5 : SessionState :=
  { initialState with
      num_items := 4,
      enabled_fields := [("name", true), ("notes", true), ("quantity", true),
        ("price", false), ("status", true), ("condition", false),
        ("category", false), ("dimensions", false)],
      form_values :=
        [(.item "quantity" 0, .vInt 2), (.item "quantity" 1, .vInt 1),
         (.item "quantity" 2, .vInt 3), (.item "quantity" 3, .vInt 5),
         (.item "status" 3, .vStr "Reject")] }

/-- A quantity-disabled state for the other branch of C5. -/
def sC5b : SessionState :=
  { initialState with
      num_items := 2,
      enabled_fields := [("name", true), ("notes", true), ("quantity", false),
        ("price", false), ("status", false), ("condition", false),
        ("category", false), ("dimensions", false)] }

/-- Witness for C5: on the worked example the total is `6` (not `11`),
and with the quantity field disabled the total equals the accepted
count. -/
theorem total_quantity_spec_witness :
    (is_field_enabled sC5 "quantity" = true ∧ get_total_quantity sC5 = 6) ∧
    (is_field_enabled sC5b "quantity" = false ∧
      get_total_quantity sC5b = (get_accepted_items_count sC5b : Int) ∧
      get_accepted_items_count sC5b = 2) :=
  ⟨⟨by decide, by rw [(total_quantity_spec sC5).2 (by decide)]; decide⟩,
   ⟨by decide, (total_quantity_spec sC5b).1 (by decide), by decide⟩⟩

/-! ## C4: dense item indices -/

theorem lookup_foldl_fvDelItem (fs : List String) (idx : Nat)
    (m : List (FVKey × Value)) (k : FVKey) :
    ((fs.foldl (fun fv f => fvDel fv (.item f idx)) m).lookup k) =
      if ∃ f ∈ fs, k = FVKey.item f idx then none else m.lookup k := by
  induction fs generalizing m with
  | nil => simp
  | cons g fs ih =>
      rw [List.foldl_cons, ih]
      by_cases hmem : ∃ f ∈ fs, k = FVKey.item f idx
      · obtain ⟨f, hf, hk⟩ := hmem
        rw [if_pos ⟨f, hf, hk⟩, if_pos ⟨f, by simp [hf], hk⟩]
      · rw [if_neg hmem, fvDel_lookup]
        by_cases hg : k = FVKey.item g idx
        · rw [if_pos hg, if_pos ⟨g, by simp, hg⟩]
        · rw [if_neg hg, if_neg ?_]
          rintro ⟨f, hf, hk⟩
          rcases List.mem_cons.1 hf with hfg | hfs
          · exact hg (hfg ▸ hk)
          · exact hmem ⟨f, hfs, hk⟩

/-- Dense item indices: every stored item photo and every stored
per-item field value belongs to an index in `[0, num_items)` (and to a
catalog field). -/
def ItemsDense (s : SessionState) : Prop :=
  (∀ i, (s.item_images.lookup i).isSome → i < s.num_items) ∧
  (∀ f i, ((s.form_values.lookup (FVKey.item f i)).isSome) →
    f ∈ availableFieldIds ∧ i < s.num_items)

/-- Effects of the general-mode cancel handler: the photo at `idx` is
always discarded, form values are untouched and the item count either
stays or (only for the nameless last item) drops by one. -/
theorem cancel_photo_general_effects (idx : Nat) (t : SessionState) :
    (cancel_photo_general idx t).item_images = fvDel t.item_images idx ∧
    (cancel_photo_general idx t).form_values = t.form_values ∧
    ((cancel_photo_general idx t).num_items = t.num_items ∨
      (idx = t.num_items - 1 ∧
        pyFalsy (get_form_value t (.item "name" idx) (.vStr "")) = true ∧
        (cancel_photo_general idx t).num_items = t.num_items - 1)) ∧
    (¬ pyFalsy (get_form_value t (.item "name" idx) (.vStr "")) = true →
      (cancel_photo_general idx t).num_items = t.num_items) := by
  unfold cancel_photo_general
  by_cases hcond : idx = t.num_items - 1 ∧
      pyFalsy (get_form_value t (.item "name" idx) (.vStr "")) = true
  · obtain ⟨h1, h2⟩ := hcond
    subst h1
    refine ⟨by simp [h2], by simp [h2], Or.inr ⟨rfl, h2, by simp [h2]⟩,
      fun hn => absurd h2 hn⟩
  · exact ⟨by simp [hcond], by simp [hcond], Or.inl (by simp [hcond]),
      fun _ => by simp [hcond]⟩

theorem applyOp_preserves_dense (s : SessionState) (op : FormOp)
    (h : ItemsDense s) : ItemsDense (applyOp s op) := by
  obtain ⟨himg, hfv⟩ := h
  cases op with
  | addNoPhoto =>
      exact ⟨fun i hi => Nat.lt_succ_of_lt (himg i hi),
             fun f i hi => ⟨(hfv f i hi).1, Nat.lt_succ_of_lt (hfv f i hi).2⟩⟩
  | addWithPhoto photo finished =>
      cases photo with
      | none =>
          cases finished with
          | true =>
              refine ⟨fun i hi => ?_, fun f i hi => ?_⟩
              · exact Nat.lt_succ_of_lt (himg i hi)
              · exact ⟨(hfv f i hi).1, Nat.lt_succ_of_lt (hfv f i hi).2⟩
          | false =>
              have happ : applyOp s (.addWithPhoto none false)
                  = cancel_photo_general s.num_items (add_item_with_photo s) :=
                rfl
              obtain ⟨him, hfm, hnum, -⟩ :=
                cancel_photo_general_effects s.num_items (add_item_with_photo s)
              rw [happ]
              refine ⟨fun i hi => ?_, fun f i hi => ?_⟩
              · rw [him, fvDel_lookup] at hi
                by_cases hin : i = s.num_items
                · rw [if_pos hin] at hi
                  simp at hi
                · rw [if_neg hin] at hi
                  have hlt : i < s.num_items := himg i hi
                  rcases hnum with hk | ⟨-, -, hk⟩ <;> rw [hk] <;>
                    simp only [add_item_with_photo] <;> omega
              · rw [hfm] at hi
                refine ⟨(hfv f i hi).1, ?_⟩
                have hlt := (hfv f i hi).2
                rcases hnum with hk | ⟨-, -, hk⟩ <;> rw [hk] <;>
                  simp only [add_item_with_photo] <;> omega
      | some b =>
          cases finished with
          | true =>
              have happ : applyOp s (.addWithPhoto (some b) true)
                  = done_photo (supply_photo s.num_items b
                      (add_item_with_photo s)) := rfl
              rw [happ]
              refine ⟨fun i hi => ?_, fun f i hi => ?_⟩
              · rw [show (done_photo (supply_photo s.num_items b
                    (add_item_with_photo s))).item_images
                  = fvSet s.item_images s.num_items b from rfl,
                  fvSet_lookup] at hi
                by_cases hin : i = s.num_items
                · subst hin
                  exact Nat.lt_succ_self _
                · rw [if_neg hin] at hi
                  exact Nat.lt_succ_of_lt (himg i hi)
              · exact ⟨(hfv f i hi).1, Nat.lt_succ_of_lt (hfv f i hi).2⟩
          | false =>
              have happ : applyOp s (.addWithPhoto (some b) false)
                  = cancel_photo_general s.num_items (supply_photo s.num_items b
                      (add_item_with_photo s)) := rfl
              obtain ⟨him, hfm, hnum, -⟩ :=
                cancel_photo_general_effects s.num_items
                  (supply_photo s.num_items b (add_item_with_photo s))
              rw [happ]
              refine ⟨fun i hi => ?_, fun f i hi => ?_⟩
              · rw [him, fvDel_lookup] at hi
                by_cases hin : i = s.num_items
                · rw [if_pos hin] at hi
                  simp at hi
                · rw [if_neg hin] at hi
                  rw [show (supply_photo s.num_items b
                      (add_item_with_photo s)).item_images
                    = fvSet s.item_images s.num_items b from rfl,
                    fvSet_lookup, if_neg hin] at hi
                  have hlt : i < s.num_items := himg i hi
                  rcases hnum with hk | ⟨-, -, hk⟩ <;> rw [hk] <;>
                    simp only [supply_photo, add_item_with_photo] <;> omega
              · rw [hfm] at hi
                refine ⟨(hfv f i hi).1, ?_⟩
                have hlt := (hfv f i hi).2
                rcases hnum with hk | ⟨-, -, hk⟩ <;> rw [hk] <;>
                  simp only [supply_photo, add_item_with_photo] <;> omega
  | removeLast =>
      by_cases hz : s.num_items = 0
      · simpa [applyOp, hz] using ⟨himg, hfv⟩
      · simp only [applyOp, hz, if_false, remove_last_item]
        constructor
        · intro i hi
          simp only [fvDel_lookup] at hi
          split at hi
          · simp at hi
          · have := himg i hi
            show i < s.num_items - 1
            rename_i hne
            omega
        · intro f i hi
          simp only [lookup_foldl_fvDelItem] at hi
          split at hi
          · simp at hi
          · rename_i hnot
            obtain ⟨hf, hlt⟩ := hfv f i hi
            refine ⟨hf, ?_⟩
            show i < s.num_items - 1
            by_cases hieq : i = s.num_items - 1
            · exact absurd ⟨f, hf, by rw [hieq]⟩ hnot
            · omega
  | editField i field v =>
      have happ0 : applyOp s (.editField i field v)
          = if i < s.num_items ∧ field ∈ availableFieldIds
            then { s with form_values := fvSet s.form_values (.item field i) v }
            else s := rfl
      by_cases hguard : i < s.num_items ∧ field ∈ availableFieldIds
      · rw [happ0, if_pos hguard]
        refine ⟨fun j hj => himg j hj, fun f j hj => ?_⟩
        have hj' : ((fvSet s.form_values (FVKey.item field i) v).lookup
            (FVKey.item f j)).isSome = true := hj
        rw [fvSet_lookup] at hj'
        by_cases hkey : FVKey.item f j = FVKey.item field i
        · simp only [FVKey.item.injEq] at hkey
          exact ⟨hkey.1 ▸ hguard.2, hkey.2 ▸ hguard.1⟩
        · rw [if_neg hkey] at hj'
          exact hfv f j hj'
      · rw [happ0, if_neg hguard]
        exact ⟨himg, hfv⟩

theorem applyOps_preserves_dense (ops : List FormOp) :
    ∀ s : SessionState, ItemsDense s → ItemsDense (applyOps s ops) := by
  induction ops with
  | nil => intro s h; exact h
  | cons op rest ih =>
      intro s h
      exact ih (applyOp s op) (applyOp_preserves_dense s op h)

theorem sum_map_le_length (l : List Nat) (δ : Nat → Nat)
    (h : ∀ i ∈ l, δ i ≤ 1) : (l.map δ).sum ≤ l.length := by
  induction l with
  | nil => simp
  | cons a t ih =>
      simp only [List.map_cons, List.sum_cons, List.length_cons]
      have := h a (by simp)
      have := ih (fun i hi => h i (by simp [hi]))
      omega

theorem accepted_le_num_items (s : SessionState) :
    get_accepted_items_count s ≤ s.num_items := by
  rw [get_accepted_items_count_eq_sum]
  calc ((List.range s.num_items).map (acceptedDelta s)).sum
      ≤ (List.range s.num_items).length := by
        apply sum_map_le_length
        intro i _
        unfold acceptedDelta
        split
        · split <;> omega
        · omega
    _ = s.num_items := List.length_range _

/-- C4: over every sequence of add-item / remove-last-item / field-edit
actions from the empty form, item photos and per-item field values stay
confined to the dense index range `[0, num_items)`; the accepted count
never exceeds the item count; `Remove Last Item` deletes the highest
index's photo and every catalog field value at that index and is a
no-op guard when no items exist. -/
theorem items_invariant (ops : List FormOp) (t : SessionState) :
    (∀ i, (((applyOps initialState ops).item_images).lookup i).isSome →
      i < (applyOps initialState ops).num_items) ∧
    (∀ f i, (((applyOps initialState ops).form_values).lookup
        (FVKey.item f i)).isSome →
      f ∈ availableFieldIds ∧ i < (applyOps initialState ops).num_items) ∧
    get_accepted_items_count (applyOps initialState ops) ≤
      (applyOps initialState ops).num_items ∧
    (0 < t.num_items →
      (remove_last_item t).num_items = t.num_items - 1 ∧
      ((remove_last_item t).item_images.lookup (t.num_items - 1)) = none ∧
      (∀ f ∈ availableFieldIds,
        ((remove_last_item t).form_values.lookup
          (FVKey.item f (t.num_items - 1))) = none)) ∧
    (t.num_items = 0 → applyOp t .removeLast = t) := by
  have hdense : ItemsDense (applyOps initialState ops) := by
    apply applyOps_preserves_dense
    constructor
    · intro i hi
      simp [initialState, List.lookup] at hi
    · intro f i hi
      simp [initialState, List.lookup] at hi
  refine ⟨hdense.1, hdense.2, accepted_le_num_items _, ?_, ?_⟩
  · intro _
    refine ⟨rfl, ?_, ?_⟩
    · simp [remove_last_item, fvDel_lookup]
    · intro f hf
      simp only [remove_last_item, lookup_foldl_fvDelItem]
      rw [if_pos ⟨f, hf, rfl⟩]
  · intro hz
    simp [applyOp, hz]

/-- Witness for C4 at concrete inputs: a short op sequence, and the
remove-last facts discharged on a concrete two-item state. -/
theorem items_invariant_witness :
    (applyOps initialState
        [.addNoPhoto, .addWithPhoto (some [1, 2]) true,
         .editField 0 "name" (.vStr "Chair"), .removeLast]).num_items = 1 ∧
    0 < sC5.num_items ∧
    (remove_last_item sC5).num_items = 3 ∧
    ((remove_last_item sC5).form_values.lookup (FVKey.item "quantity" 3)) =
      none ∧
    initialState.num_items = 0 ∧ applyOp initialState .removeLast = initialState :=
  ⟨by decide, by decide,
   (items_invariant [] sC5).2.2.2.1 (by decide) |>.1,
   (items_invariant [] sC5).2.2.2.1 (by decide) |>.2.2 "quantity" (by decide),
   rfl, (items_invariant [] initialState).2.2.2.2 rfl⟩

/-! ## C3: detection creates one item per box (or one for the whole
image) -/

theorem detectionImages_lookup_lt (cropPng : Box → Bytes) (w h : Nat) :
    ∀ (boxes : List Box) (i0 k : Nat), k < i0 →
      ((detectionImages cropPng w h i0 boxes).lookup k) = none := by
  intro boxes
  induction boxes with
  | nil => intro i0 k _; rfl
  | cons bx rest ih =>
      intro i0 k hk
      unfold detectionImages
      by_cases hc : 0 < cropSize w h bx
      · rw [if_pos hc, lookup_cons_ne _ _ _ _ (by omega)]
        exact ih (i0 + 1) k (by omega)
      · rw [if_neg hc]
        exact ih (i0 + 1) k (by omega)

theorem detectionImages_lookup (cropPng : Box → Bytes) (w h : Nat) :
    ∀ (boxes : List Box) (i0 j : Nat),
      ((detectionImages cropPng w h i0 boxes).lookup (i0 + j)) =
        match boxes.get? j with
        | some bx => if 0 < cropSize w h bx then some (cropPng bx) else none
        | none => none := by
  intro boxes
  induction boxes with
  | nil => intro i0 j; simp [detectionImages]
  | cons bx rest ih =>
      intro i0 j
      unfold detectionImages
      by_cases hc : 0 < cropSize w h bx
      · rw [if_pos hc]
        cases j with
        | zero =>
            rw [Nat.add_zero, lookup_cons_self]
            simp [hc]
        | succ j' =>
            rw [lookup_cons_ne _ _ _ _ (by omega),
              show i0 + (j' + 1) = (i0 + 1) + j' from by omega, ih]
            rfl
      · rw [if_neg hc]
        cases j with
        | zero =>
            rw [Nat.add_zero, detectionImages_lookup_lt cropPng w h rest
              (i0 + 1) i0 (by omega)]
            simp [hc]
        | succ j' =>
            rw [show i0 + (j' + 1) = (i0 + 1) + j' from by omega, ih]
            rfl

/-- C3 amended: running detection on a new image with zero boxes yields
exactly one item backed by the PNG of the whole image; with `k ≥ 1`
boxes it yields exactly `k` items, where item `j` is backed by the PNG
of box `j`'s crop when that crop is non-empty and carries no photo when
the crop is empty. -/
theorem run_detection_items (cropPng : Box → Bytes) (wholePng : Bytes)
    (w h : Nat) (boxes : List Box) (s : SessionState) :
    (boxes = [] →
      (run_detection cropPng wholePng w h boxes s).num_items = 1 ∧
      (run_detection cropPng wholePng w h boxes s).item_images
        = [(0, wholePng)]) ∧
    (boxes ≠ [] →
      (run_detection cropPng wholePng w h boxes s).num_items = boxes.length ∧
      ∀ j bx, boxes.get? j = some bx →
        ((run_detection cropPng wholePng w h boxes s).item_images.lookup j)
          = if 0 < cropSize w h bx then some (cropPng bx) else none) := by
  constructor
  · intro hb
    subst hb
    exact ⟨rfl, rfl⟩
  · intro hb
    have hlen : 0 < boxes.length := List.length_pos.2 hb
    have happ : run_detection cropPng wholePng w h boxes s
        = { s with
            boxes_data := boxes.map fun b =>
              [(b.1 : Int), (b.2.1 : Int), (b.2.2.1 : Int), (b.2.2.2 : Int)],
            item_images := detectionImages cropPng w h 0 boxes,
            num_items := boxes.length, detection_complete := true } := by
      unfold run_detection
      rw [if_pos hlen]
    rw [happ]
    refine ⟨rfl, fun j bx hj => ?_⟩
    have := detectionImages_lookup cropPng w h boxes 0 j
    rw [Nat.zero_add] at this
    rw [show ({ s with
        boxes_data := boxes.map fun b =>
          [(b.1 : Int), (b.2.1 : Int), (b.2.2.1 : Int), (b.2.2.2 : Int)],
        item_images := detectionImages cropPng w h 0 boxes,
        num_items := boxes.length,
        detection_complete := true } : SessionState).item_images
      = detectionImages cropPng w h 0 boxes from rfl, this, hj]

/-- Witness for C3: zero boxes give one whole-image item; one
non-degenerate box gives one crop-backed item. -/
theorem run_detection_items_witness :
    (run_detection (fun _ => [9]) [7] 4 4 [] initialState).num_items = 1 ∧
    (run_detection (fun _ => [9]) [7] 4 4 [] initialState).item_images
      = [(0, [7])] ∧
    (run_detection (fun _ => [9]) [7] 4 4 [(0, 0, 2, 2)]
        initialState).num_items = 1 ∧
    ((run_detection (fun _ => [9]) [7] 4 4 [(0, 0, 2, 2)]
        initialState).item_images.lookup 0) = some [9] :=
  ⟨((run_detection_items (fun _ => [9]) [7] 4 4 [] initialState).1 rfl).1,
   ((run_detection_items (fun _ => [9]) [7] 4 4 [] initialState).1 rfl).2,
   by
     rw [((run_detection_items (fun _ => [9]) [7] 4 4 [(0, 0, 2, 2)]
       initialState).2 (by decide)).1]
     rfl,
   by
     rw [((run_detection_items (fun _ => [9]) [7] 4 4 [(0, 0, 2, 2)]
       initialState).2 (by decide)).2 0 (0, 0, 2, 2) rfl]
     decide⟩

/-- C3 as stated is false at a degenerate box: a box with an empty
intersection with the image still creates an item, but that item is
backed by no cropped sub-image at all. -/
theorem run_detection_zero_area_box :
    (run_detection (fun _ => [9]) [7] 10 10 [(0, 0, 0, 5)]
        initialState).num_items = 1 ∧
    ((run_detection (fun _ => [9]) [7] 10 10 [(0, 0, 0, 5)]
        initialState).item_images.lookup 0) = none := by
  decide

/-! ## C7: cancelling the photo sub-step -/

/-- C7 amended: in general and email modes, cancellation removes the
just-added item only when it is the last item and still has a falsy
name — an item with a non-empty name is never discarded.  In detection
mode, cancellation instead removes the item exactly when its index is
not backed by a detection box, regardless of any entered name. -/
theorem cancel_photo_modes (idx : Nat) (s : SessionState) :
    (¬ pyFalsy (get_form_value s (.item "name" idx) (.vStr "")) = true →
      (cancel_photo_general idx s).num_items = s.num_items ∧
      (cancel_photo_email idx s).num_items = s.num_items) ∧
    ((idx = s.num_items - 1 ∧
        pyFalsy (get_form_value s (.item "name" idx) (.vStr "")) = true) →
      (cancel_photo_general idx s).num_items = s.num_items - 1) ∧
    (s.boxes_data.length ≤ idx →
      (cancel_photo_detection idx s).num_items = s.num_items - 1) ∧
    (idx < s.boxes_data.length →
      (cancel_photo_detection idx s).num_items = s.num_items) := by
  obtain ⟨-, -, -, hname⟩ := cancel_photo_general_effects idx s
  refine ⟨fun hn => ⟨hname hn, hname hn⟩, fun hcond => ?_, fun hdet => ?_,
    fun hdet => ?_⟩
  · obtain ⟨h1, h2⟩ := hcond
    subst h1
    unfold cancel_photo_general
    simp [h2]
  · unfold cancel_photo_detection
    rw [if_pos hdet]
  · unfold cancel_photo_detection
    rw [if_neg (by omega)]

/-- A detection-mode session whose only item was named by the user:
zero detection boxes (the photo was skipped), one item named "Lamp",
currently in the photo sub-step for item 0. -/
def sC7 : SessionState :=
  { initialState with
      app_mode := some "detection",
      boxes_data := [],
      num_items := 1,
      detection_complete := true,
      form_values := [(.item "name" 0, .vStr "Lamp")],
      adding_photo_for_item := some 0 }

/-- Witness for C7 at concrete inputs: a named item survives the
general-mode cancel, a nameless last item is removed, and the
detection-mode cancel removes exactly the box-less item. -/
theorem cancel_photo_modes_witness :
    (cancel_photo_general 0 sC7).num_items = 1 ∧
    (cancel_photo_general 0
      { initialState with num_items := 1 }).num_items = 0 ∧
    (cancel_photo_detection 0
      { initialState with num_items := 1 }).num_items = 0 ∧
    (cancel_photo_detection 0
      { initialState with
          num_items := 1,
          boxes_data := [[0, 0, 2, 2]] }).num_items = 1 :=
  ⟨(cancel_photo_modes 0 sC7).1 (by decide) |>.1,
   (cancel_photo_modes 0 { initialState with num_items := 1 }).2.1
     ⟨rfl, by decide⟩,
   (cancel_photo_modes 0 { initialState with num_items := 1 }).2.2.1
     (by decide),
   (cancel_photo_modes 0 { initialState with
       num_items := 1,
       boxes_data := [[0, 0, 2, 2]] }).2.2.2 (by decide)⟩

/-- C7 as stated is false: in detection mode, cancelling the photo
sub-step for an item with the non-empty name "Lamp" still removes the
item (its index is not backed by a box), so an item with user-entered
data is silently discarded. -/
theorem cancel_photo_detection_discards_named_item :
    get_form_value sC7 (.item "name" 0) (.vStr "") = .vStr "Lamp" ∧
    pyFalsy (get_form_value sC7 (.item "name" 0) (.vStr "")) = false ∧
    (cancel_photo_detection 0 sC7).num_items = 0 := by
  decide

/-! ## C9: accepting the parsed email result -/

theorem setEmailItems_lookup_lt (rest : List ParsedItem) :
    ∀ (i0 : Nat) (fv : List (FVKey × Value)) (f : String) (i : Nat), i < i0 →
      ((setEmailItems i0 rest fv).lookup (.item f i)) = fv.lookup (.item f i) := by
  induction rest with
  | nil => intro i0 fv f i _; rfl
  | cons it rest ih =>
      intro i0 fv f i hi
      unfold setEmailItems
      rw [ih (i0 + 1) _ f i (by omega)]
      rw [fvSet_lookup, if_neg (by simp; omega), fvSet_lookup,
        if_neg (by simp; omega), fvSet_lookup, if_neg (by simp; omega),
        fvSet_lookup, if_neg (by simp; omega), fvSet_lookup,
        if_neg (by simp; omega)]

theorem setEmailItems_lookup (items : List ParsedItem) :
    ∀ (i0 j : Nat) (fv : List (FVKey × Value)) (it : ParsedItem),
      items.get? j = some it →
      ((setEmailItems i0 items fv).lookup (.item "price" (i0 + j)))
        = some (.vFlt 0 0) ∧
      ((setEmailItems i0 items fv).lookup (.item "status" (i0 + j)))
        = some (.vStr "Accept") ∧
      ((setEmailItems i0 items fv).lookup (.item "quantity" (i0 + j)))
        = some (pget it "quantity" (.vInt 1)) ∧
      ((setEmailItems i0 items fv).lookup (.item "notes" (i0 + j)))
        = some (pget it "notes" (.vStr "")) ∧
      ((setEmailItems i0 items fv).lookup (.item "name" (i0 + j)))
        = some (pget it "name" (.vStr "")) := by
  induction items with
  | nil => intro i0 j fv it h; simp at h
  | cons it0 rest ih =>
      intro i0 j fv it hj
      cases j with
      | zero =>
          simp only [List.get?_cons_zero, Option.some.injEq] at hj
          subst hj
          unfold setEmailItems
          rw [Nat.add_zero]
          refine ⟨?_, ?_, ?_, ?_, ?_⟩ <;>
            rw [setEmailItems_lookup_lt rest (i0 + 1) _ _ i0 (by omega)] <;>
            repeat' rw [fvSet_lookup]
          · rw [if_pos rfl]
          · rw [if_neg (by simp), if_pos rfl]
          · rw [if_neg (by simp), if_neg (by simp), if_pos rfl]
          · rw [if_neg (by simp), if_neg (by simp), if_neg (by simp),
              if_pos rfl]
          · rw [if_neg (by simp), if_neg (by simp), if_neg (by simp),
              if_neg (by simp), if_pos rfl]
      | succ j' =>
          unfold setEmailItems
          rw [show i0 + (j' + 1) = (i0 + 1) + j' from by omega]
          exact ih (i0 + 1) j' _ it (by simpa using hj)

/-- C9 amended: accepting the parsed result materializes exactly one
item per extracted candidate whose status value is one of
`"approved"`, `"unknown"`, `"pending"` (candidates with a missing,
null or other status — including a missing status, which is not
`"rejected"` — are excluded); each materialized item gets price `0.0`,
form status `"Accept"`, and name/notes/quantity copied from the
extracted values with defaults `""`/`""`/`1`. -/
theorem email_accept_items_spec (cn ca ph : Value) (items : List ParsedItem)
    (s : SessionState) :
    (email_accept cn ca ph items s).num_items
      = (items.filter statusApproved).length ∧
    ∀ j it, (items.filter statusApproved).get? j = some it →
      ((email_accept cn ca ph items s).form_values.lookup (.item "price" j))
        = some (.vFlt 0 0) ∧
      ((email_accept cn ca ph items s).form_values.lookup (.item "status" j))
        = some (.vStr "Accept") ∧
      ((email_accept cn ca ph items s).form_values.lookup (.item "quantity" j))
        = some (pget it "quantity" (.vInt 1)) ∧
      ((email_accept cn ca ph items s).form_values.lookup (.item "notes" j))
        = some (pget it "notes" (.vStr "")) ∧
      ((email_accept cn ca ph items s).form_values.lookup (.item "name" j))
        = some (pget it "name" (.vStr "")) := by
  refine ⟨rfl, fun j it hj => ?_⟩
  have hmain := setEmailItems_lookup (items.filter statusApproved) 0 j
    (fvSet (fvSet (fvSet s.form_values
      (.global_ "customer_name") cn)
      (.global_ "customer_address") ca)
      (.global_ "phone_number") ph) it hj
  rw [Nat.zero_add] at hmain
  exact hmain

/-- Witness for C9: one approved candidate with quantity 2 and one
rejected candidate materialize exactly one item with the extracted
quantity, price `0.0` and status `"Accept"`. -/
theorem email_accept_items_spec_witness :
    (email_accept (.vStr "Jane") (.vStr "") (.vStr "")
        [[("name", Value.vStr "Chair"), ("status", Value.vStr "approved"),
          ("quantity", Value.vInt 2)],
         [("name", Value.vStr "Sofa"), ("status", Value.vStr "rejected")]]
        initialState).num_items = 1 ∧
    ((email_accept (.vStr "Jane") (.vStr "") (.vStr "")
        [[("name", Value.vStr "Chair"), ("status", Value.vStr "approved"),
          ("quantity", Value.vInt 2)],
         [("name", Value.vStr "Sofa"), ("status", Value.vStr "rejected")]]
        initialState).form_values.lookup (.item "quantity" 0))
      = some (Value.vInt 2) := by
  constructor
  · rw [(email_accept_items_spec (.vStr "Jane") (.vStr "") (.vStr "")
      [[("name", Value.vStr "Chair"), ("status", Value.vStr "approved"),
        ("quantity", Value.vInt 2)],
       [("name", Value.vStr "Sofa"), ("status", Value.vStr "rejected")]]
      initialState).1]
    decide
  · rw [((email_accept_items_spec (.vStr "Jane") (.vStr "") (.vStr "")
      [[("name", Value.vStr "Chair"), ("status", Value.vStr "approved"),
        ("quantity", Value.vInt 2)],
       [("name", Value.vStr "Sofa"), ("status", Value.vStr "rejected")]]
      initialState).2 0
      [("name", Value.vStr "Chair"), ("status", Value.vStr "approved"),
       ("quantity", Value.vInt 2)] (by decide)).2.2.1]
    decide

/-- C9 as stated is false: a candidate with no extracted status at all
(which is certainly not `"rejected"`) is nevertheless *not*
materialized — the handler keeps only `'approved'`, `'unknown'` and
`'pending'`.  One such candidate yields zero items where the claim
demands one. -/
theorem email_accept_missing_status :
    (email_accept (.vStr "") (.vStr "") (.vStr "")
        [[("name", Value.vStr "Chair")]] initialState).num_items = 0 ∧
    ([[("name", Value.vStr "Chair")]].filter
        (fun it => !(it.lookup "status" == some (Value.vStr "rejected")))).length
      = 1 := by
  decide

/-! ## C8: lazy draft expiry and listing order -/

theorem mem_cleanup_iff (now : Nat) (store : List DraftRecord)
    (q : DraftRecord) :
    q ∈ cleanup_old_drafts now store ↔
      q ∈ store ∧ ¬ q.updated_at < now - draftExpirySeconds := by
  unfold cleanup_old_drafts
  rw [List.mem_filter]
  simp

/-- C8: a record whose `updated_at` is older than the 24-hour window is
purged by any `get_all_drafts` call: it is absent from the returned
summaries, and a subsequent `load_draft` on its id against the purged
table returns not-found; records inside the window survive with their
ids listed, and the listing is ordered by most-recently-updated. -/
theorem drafts_expiry_spec (now : Nat) (store : List DraftRecord)
    (r : DraftRecord) (hnodup : (store.map DraftRecord.id).Nodup)
    (hmem : r ∈ store) (hexp : r.updated_at < now - draftExpirySeconds) :
    (∀ summ ∈ (get_all_drafts now store).2, summ.id ≠ r.id) ∧
    load_draft r.id (get_all_drafts now store).1 = none ∧
    (get_all_drafts now store).2.Pairwise
      (fun a b => b.updated_at ≤ a.updated_at) ∧
    (∀ q ∈ store, ¬ q.updated_at < now - draftExpirySeconds →
      ∃ summ ∈ (get_all_drafts now store).2, summ.id = q.id) := by
  have hid : ∀ q ∈ cleanup_old_drafts now store, q.id ≠ r.id := by
    intro q hq hqid
    obtain ⟨hqmem, hqfresh⟩ := (mem_cleanup_iff now store q).1 hq
    have : q = r := List.inj_on_of_nodup_map hnodup hqmem hmem hqid
    exact hqfresh (this ▸ hexp)
  have hperm := List.perm_insertionSort laterUpdated
    (cleanup_old_drafts now store)
  refine ⟨?_, ?_, ?_, ?_⟩
  · intro summ hsumm
    simp only [get_all_drafts, List.mem_map] at hsumm
    obtain ⟨q, hq, hsq⟩ := hsumm
    have hq' : q ∈ cleanup_old_drafts now store := hperm.mem_iff.1 hq
    rw [← hsq]
    exact hid q hq'
  · simp only [get_all_drafts, load_draft]
    rw [List.find?_eq_none.2 ?_]
    · rfl
    · intro q hq
      simp only [decide_eq_true_eq]
      exact hid q hq
  · simp only [get_all_drafts]
    have hs := List.sorted_insertionSort laterUpdated
      (cleanup_old_drafts now store)
    exact List.Pairwise.map _ (fun a b hab => hab) hs
  · intro q hq hfresh
    refine ⟨q.summary, ?_, rfl⟩
    simp only [get_all_drafts, List.mem_map]
    exact ⟨q, hperm.mem_iff.2 ((mem_cleanup_iff now store q).2 ⟨hq, hfresh⟩),
      rfl⟩

/-- A concrete two-record table: `old` expired 100000 seconds ago at
`now = 200000`, `fresh` updated recently. -/
def draftOld : DraftRecord :=
  { id := "old1", name := "Old", app_mode := "general",
    form_data :=
      { form_values := [], num_items := 0, item_images := [],
        image_data := none, image_hash := none, boxes_data := [],
        detection_complete := false, is_new_consigner := true,
        consigner_type_selection := "New Consigner",
        searched_account_number := "", manual_account_number := "",
        search_failed := false, enabled_fields := [] },
    created_at := 1000, updated_at := 1000 }

def draftFresh : DraftRecord :=
  { draftOld with id := "new1", name := "Fresh", created_at := 190000,
                  updated_at := 190000 }

/-- Witness for C8 on the concrete table. -/
theorem drafts_expiry_spec_witness :
    (([draftOld, draftFresh].map DraftRecord.id).Nodup ∧
      draftOld ∈ [draftOld, draftFresh] ∧
      draftOld.updated_at < 200000 - draftExpirySeconds) ∧
    (∀ summ ∈ (get_all_drafts 200000 [draftOld, draftFresh]).2,
      summ.id ≠ draftOld.id) ∧
    load_draft draftOld.id (get_all_drafts 200000 [draftOld, draftFresh]).1
      = none ∧
    (get_all_drafts 200000 [draftOld, draftFresh]).2.map DraftSummary.id
      = ["new1"] :=
  ⟨⟨by decide, by decide, by decide⟩,
   (drafts_expiry_spec 200000 [draftOld, draftFresh] draftOld (by decide)
     (by decide) (by decide)).1,
   (drafts_expiry_spec 200000 [draftOld, draftFresh] draftOld (by decide)
     (by decide) (by decide)).2.1,
   by decide⟩

/-! ## C1: draft save/load round trip -/

/-- C1 amended: for every form state with well-formed photo bytes whose
main image is either absent or non-empty, saving it as a draft and then
loading that draft id yields exactly the original form data and mode:
photo bytes and the main image survive the base64 encode/decode
byte-for-byte, `item_images` keys come back as the original integer
indices, and all field values, the item count and the enabled-field set
are preserved.  (An empty-but-present main image is excluded: it is
falsy, escapes base64 encoding, and makes the JSON serialization
fail — see the counterexample.) -/
theorem save_then_load_roundtrip (now : Nat) (id name mode : String)
    (fd : FormData) (store : List DraftRecord) (hv : ValidFormData fd)
    (hne : fd.image_data ≠ some ([] : Bytes)) :
    ∃ store', save_draft now id name mode fd store = some store' ∧
      load_draft id store' = some (fd, mode) := by
  have hsome : (serializeFormData fd).isSome := by
    cases hcase : fd.image_data with
    | none => simp [serializeFormData, hcase]
    | some b =>
        have hb : ¬ (b.isEmpty = true) := by
          cases b with
          | nil => exact absurd hcase hne
          | cons x xs => simp
        simp [serializeFormData, hcase, hb]
  obtain ⟨sfd, hsfd⟩ := Option.isSome_iff_exists.1 hsome
  refine ⟨upsertDraft now id name mode sfd store, ?_, ?_⟩
  · unfold save_draft
    rw [hsfd]
    rfl
  · unfold load_draft
    obtain ⟨created, hfind⟩ := find?_upsertDraft now id name mode sfd store
    rw [hfind]
    exact congrArg some (Prod.ext (deserialize_serialize fd hv sfd hsfd) rfl)

/-- A concrete valid form state used as the C1 witness. -/
def fdRound : FormData :=
  { form_values := [(FVKey.global_ "customer_name", Value.vStr "Jane Doe"),
      (FVKey.item "name" 0, Value.vStr "Chair"),
      (FVKey.item "quantity" 0, Value.vInt 2),
      (FVKey.item "price" 0, Value.vFlt 0 0)],
    num_items := 2, item_images := [(0, [0, 255, 10]), (12, [7])],
    image_data := some [1, 2, 3, 4], image_hash := some "abc123",
    boxes_data := [[0, 0, 3, 4]], detection_complete := true,
    is_new_consigner := true,
    consigner_type_selection := "New Consigner",
    searched_account_number := "", manual_account_number := "",
    search_failed := false,
    enabled_fields := [("name", true), ("quantity", true)] }

/-- Witness for C1: the concrete state round-trips through an empty
store. -/
theorem save_then_load_roundtrip_witness :
    ValidFormData fdRound ∧ fdRound.image_data ≠ some ([] : Bytes) ∧
    ∃ store', save_draft 5 "d1" "Jane Doe" "general" fdRound [] = some store' ∧
      load_draft "d1" store' = some (fdRound, "general") :=
  ⟨by decide, by decide,
   save_then_load_roundtrip 5 "d1" "Jane Doe" "general" fdRound []
     (by decide) (by decide)⟩

/-- A form state whose main image is present but empty. -/
def fdEmptyImage : FormData :=
  { form_values := [], num_items := 1, item_images := [],
    image_data := some [], image_hash := some "d41d8cd9",
    boxes_data := [], detection_complete := false, is_new_consigner := true,
    consigner_type_selection := "New Consigner",
    searched_account_number := "", manual_account_number := "",
    search_failed := false, enabled_fields := [] }

/-- C1 as stated is false for a form state whose main image is the
empty byte string: the empty bytes are falsy, so `save_draft` skips the
base64 encoding and then `json.dumps` fails on the raw bytes value —
no draft row is written, and loading the id finds nothing, so no
equivalent form state is ever reproduced. -/
theorem save_draft_empty_image_fails :
    save_draft 0 "d1" "n" "general" fdEmptyImage [] = none ∧
    load_draft "d1" ([] : List DraftRecord) = none := by
  decide

end IntakeApp
